import Mathlib

/-!
Verification of the scamcrawler pipeline (src/crawler.py) against its
natural-language specification.

The development shallow-embeds the pipeline of `ScammerIntelCrawler`:
the pattern library and extraction engine (`extract_information`), phone
normalization (`standardize_phone_number`), domain enrichment
(`get_domain_info`), risk scoring (`calculate_risk_score`), the MongoDB
upsert performed by `store_data` (an `update_one` with a whole-document
`$set` and `upsert=True`), and the frontier logic of `crawl_url`.

Python regular-expression matching (the `re` module as used through
`re.findall` on the crawler patterns) is embedded as a small executable
backtracking matcher with Python semantics on the constructs the
patterns use: character classes, concatenation, alternation with
first-branch preference, and greedy counted repetition.  `re.findall`
is embedded as a left-to-right scan collecting non-overlapping matches.

Datetimes are modelled as integers (whole days since an arbitrary
epoch); `timedelta.days` of a difference of two such datetimes is then
exactly integer subtraction.  External collaborators (WHOIS, DNS, the
rendered text produced by BeautifulSoup, and the iteration order of a
Python `set`) are passed in as explicit parameters, since the spec
treats them as opaque capabilities.
-/

/-! ### A Python-`re` style backtracking matcher -/

/-- Abstract syntax of the regular-expression fragment used by the
crawler patterns: empty, single character satisfying a predicate,
concatenation, alternation (first branch preferred, as in Python), and
greedy repetition between `lo` and `hi` copies (`hi = none` meaning
unbounded). -/
inductive RE where
  | eps : RE
  | ch : (Char → Bool) → RE
  | seqr : RE → RE → RE
  | alt : RE → RE → RE
  | rep : RE → Nat → Option Nat → RE

/-- Structural size of a regular expression, used to bound the fuel of
the backtracking matcher. -/
def reSize : RE → Nat
  | RE.eps => 1
  | RE.ch _ => 1
  | RE.seqr a b => reSize a + reSize b + 1
  | RE.alt a b => reSize a + reSize b + 1
  | RE.rep r _ _ => reSize r + 1

/-- Decrement an optional repetition bound. -/
def decHi : Option Nat → Option Nat
  | none => none
  | some n => some (n - 1)

/-- Backtracking matcher in continuation style.  `mRE fuel r s k` tries
to match `r` against a prefix of `s` and calls the continuation `k` on
the remaining suffix; alternatives are tried in Python preference
order: the left branch of an alternation first, and for greedy
repetition the longer expansion first.  The result is the suffix
accepted by the first succeeding path, mirroring the match a Python
backtracking engine reports.  `fuel` only forces termination; it is
chosen large enough (`reFuel`) that it never runs out on the inputs
evaluated here. -/
def mRE : Nat → RE → List Char → (List Char → Option (List Char)) → Option (List Char)
  | 0, _, _, _ => none
  | _ + 1, RE.eps, s, k => k s
  | _ + 1, RE.ch p, s, k =>
      match s with
      | [] => none
      | c :: t => if p c then k t else none
  | f + 1, RE.seqr a b, s, k => mRE f a s (fun s1 => mRE f b s1 k)
  | f + 1, RE.alt a b, s, k =>
      match mRE f a s k with
      | some r => some r
      | none => mRE f b s k
  | f + 1, RE.rep r lo hi, s, k =>
      match lo, hi with
      | 0, some 0 => k s
      | 0, _ =>
          match mRE f r s (fun s1 => mRE f (RE.rep r 0 (decHi hi)) s1 k) with
          | some res => some res
          | none => k s
      | l + 1, _ => mRE f r s (fun s1 => mRE f (RE.rep r l (decHi hi)) s1 k)

/-- Fuel sufficient for `mRE` on input `s`: every call either descends
into the pattern structure or consumes a character, so this product
bounds the call depth comfortably. -/
def reFuel (r : RE) (s : List Char) : Nat :=
  (s.length + 2) * (reSize r + 2)

/-- One attempt to match `r` at the start of `s`; returns the remaining
suffix of the preferred match. -/
def matchAt (r : RE) (s : List Char) : Option (List Char) :=
  mRE (reFuel r s) r s (fun rest => some rest)

/-- Scanner behind the embedding of `re.findall`: walk the input left
to right; at each position try a match, on success record the matched
text and resume after it, otherwise advance one character.  The fuel is
the length of the input plus one, which each step strictly decreases.
(The crawler patterns never match the empty string; a zero-width match
is skipped to keep the function total.) -/
def findAllGo (r : RE) : Nat → List Char → List String
  | 0, _ => []
  | _ + 1, [] => []
  | f + 1, s@(_ :: rest) =>
      match matchAt r s with
      | some remain =>
          let used := s.length - remain.length
          if used = 0 then findAllGo r f rest
          else String.mk (s.take used) :: findAllGo r f remain
      | none => findAllGo r f rest

/-- Embedding of `re.findall(pattern, s)` for the group-free crawler
patterns: the list of non-overlapping matches, scanned left to right. -/
def findAll (r : RE) (s : String) : List String :=
  findAllGo r (s.data.length + 1) s.data

/-! ### Pattern-building helpers -/

/-- Single literal character. -/
def reChar (c : Char) : RE := RE.ch (fun x => x == c)

/-- Literal string. -/
def reOf (s : String) : RE := (s.data.map reChar).foldr RE.seqr RE.eps

/-- Character class given by an explicit list of characters. -/
def reCls (s : String) : RE := RE.ch (fun x => s.data.contains x)

/-- Sequence of expressions. -/
def reSeqs (l : List RE) : RE := l.foldr RE.seqr RE.eps

/-- Alternation over a list, preferring earlier entries (Python order). -/
def reAlts : List RE → RE
  | [] => RE.ch (fun _ => false)
  | [r] => r
  | r :: rest => RE.alt r (reAlts rest)

/-- Zero-or-one occurrences (the regex `?`). -/
def reOpt (r : RE) : RE := RE.rep r 0 (some 1)

/-- One-or-more occurrences (the regex `+`). -/
def rePlus (r : RE) : RE := RE.rep r 1 none

/-- Exactly `lo` to `hi` occurrences (the regex interval quantifier). -/
def reTimes (r : RE) (lo hi : Nat) : RE := RE.rep r lo (some hi)

/-- At least `lo` occurrences (an open-ended interval quantifier). -/
def reAtLeast (r : RE) (lo : Nat) : RE := RE.rep r lo none

/-- Python regex whitespace class (ASCII part of Python `\s`). -/
def pySpace (c : Char) : Bool :=
  c == ' ' || c == '\t' || c == '\n' || c == '\r' || c == '\x0b' || c == '\x0c'

/-- Python regex digit class (ASCII part of Python `\d`). -/
def reDigit : RE := RE.ch Char.isDigit

/-- Python regex word class (ASCII part of Python `\w`). -/
def reWord : RE := RE.ch (fun c => c.isAlphanum || c == '_')

/-- The class written in the phone pattern as whitespace-or-hyphen. -/
def reSpaceDash : RE := RE.ch (fun c => pySpace c || c == '-')

/-- ASCII letters (the class of letters used in the email pattern). -/
def reAlpha : RE := RE.ch Char.isAlpha

/-- ASCII letters and digits. -/
def reAlnum : RE := RE.ch Char.isAlphanum

/-! ### The crawler pattern library (crawler.py lines 64-95) -/

/-- First phone alternative: optional plus-prefixed country code, then
an optionally parenthesised area code, then two separator-joined digit
groups. -/
def phoneAlt1 : RE :=
  reSeqs [reOpt (reSeqs [reChar '+', reTimes reDigit 1 3, reOpt reSpaceDash]),
          reOpt (reChar '('), reTimes reDigit 3 3, reOpt (reChar ')'),
          reOpt reSpaceDash, reTimes reDigit 3 3,
          reOpt reSpaceDash, reTimes reDigit 4 4]

/-- Second phone alternative: dashed or spaced domestic form with
optional plus-prefixed country code. -/
def phoneAlt2 : RE :=
  reSeqs [reOpt (reSeqs [reChar '+', reTimes reDigit 1 3, reOpt reSpaceDash]),
          reTimes reDigit 3 3, reOpt reSpaceDash,
          reTimes reDigit 3 3, reOpt reSpaceDash, reTimes reDigit 4 4]

/-- Third phone alternative: dotted form. -/
def phoneAlt3 : RE :=
  reSeqs [reOpt (reSeqs [reOpt (reChar '+'), reTimes reDigit 1 3, reOpt (reChar '.')]),
          reTimes reDigit 3 3, reChar '.',
          reTimes reDigit 3 3, reChar '.', reTimes reDigit 4 4]

/-- Fourth phone alternative: bare international digit run. -/
def phoneAlt4 : RE :=
  reSeqs [reOpt (reChar '+'), reTimes reDigit 1 3, reTimes reDigit 10 10]

/-- The crawler phone pattern (the four-way alternation, in declared
order). -/
def phoneRE : RE := reAlts [phoneAlt1, phoneAlt2, phoneAlt3, phoneAlt4]

/-- Characters admitted in the local part of the email pattern. -/
def emailLocalChar (c : Char) : Bool :=
  c.isAlphanum || c == '.' || c == '_' || c == '%' || c == '+' || c == '-'

/-- Characters admitted in the domain part of the email pattern. -/
def emailDomainChar (c : Char) : Bool :=
  c.isAlphanum || c == '.' || c == '-'

/-- The crawler email pattern. -/
def emailRE : RE :=
  reSeqs [rePlus (RE.ch emailLocalChar), reChar '@',
          rePlus (RE.ch emailDomainChar), reChar '.', reAtLeast reAlpha 2]

/-- Base58-style class of the BTC and LTC patterns. -/
def b58Char (c : Char) : Bool :=
  (c.isLower && !(c == 'l')) || (c.isUpper && !(c == 'I') && !(c == 'O')) ||
  (c.isDigit && !(c == '0'))

/-- Hexadecimal digit class of the ETH pattern. -/
def hexChar (c : Char) : Bool :=
  c.isDigit || (decide ('a' ≤ c) && decide (c ≤ 'f')) ||
  (decide ('A' ≤ c) && decide (c ≤ 'F'))

/-- BTC wallet pattern: bech32 form or legacy base58 form. -/
def btcRE : RE :=
  RE.alt (reSeqs [reOf "bc1", reTimes reAlnum 25 39])
         (reSeqs [reCls "13", reTimes (RE.ch b58Char) 25 34])

/-- ETH wallet pattern. -/
def ethRE : RE := reSeqs [reOf "0x", reTimes (RE.ch hexChar) 40 40]

/-- XRP wallet pattern. -/
def xrpRE : RE := reSeqs [reChar 'r', reTimes reAlnum 24 34]

/-- LTC wallet pattern. -/
def ltcRE : RE := reSeqs [reCls "LM3", reTimes (RE.ch b58Char) 26 33]

/-- The crypto sub-pattern table, in the declaration (and hence Python
dict iteration) order of crawler.py. -/
def cryptoPatterns : List (String × RE) :=
  [("BTC", btcRE), ("ETH", ethRE), ("XRP", xrpRE), ("LTC", ltcRE)]

/-- Telegram profile pattern. -/
def telegramRE : RE := reSeqs [reOf "t.me/", rePlus reWord]

/-- Twitter profile pattern. -/
def twitterRE : RE := reSeqs [reOf "twitter.com/", rePlus reWord]

/-- Facebook profile pattern (word characters or dots after the host). -/
def facebookRE : RE :=
  reSeqs [reOf "facebook.com/", rePlus (RE.ch (fun c => c.isAlphanum || c == '_' || c == '.'))]

/-- Instagram profile pattern. -/
def instagramRE : RE :=
  reSeqs [reOf "instagram.com/", rePlus (RE.ch (fun c => c.isAlphanum || c == '_' || c == '.'))]

/-- WhatsApp profile pattern. -/
def whatsappRE : RE := reSeqs [reOf "wa.me/", rePlus reDigit]

/-- Discord pattern: invite link or user page. -/
def discordRE : RE :=
  RE.alt (reSeqs [reOf "discord.gg/", rePlus reWord])
         (reSeqs [reOf "discordapp.com/users/", rePlus reDigit])

/-- The social-media sub-pattern table, in the declaration order of
crawler.py. -/
def socialPatterns : List (String × RE) :=
  [("telegram", telegramRE), ("twitter", twitterRE), ("facebook", facebookRE),
   ("instagram", instagramRE), ("whatsapp", whatsappRE), ("discord", discordRE)]

/-! ### Phone normalization (crawler.py lines 97-108) -/

/-- The digit subsequence of a string, as produced by the substitution
that deletes every non-digit character. -/
def digitsOf (s : String) : String :=
  String.mk (s.data.filter (fun c => c.isDigit))

/-- Embedding of `ScammerIntelCrawler.standardize_phone_number`: strip
non-digits, then prefix a plus sign when more than ten digits remain, a
plus-one when exactly ten remain, and otherwise return the digit string
unchanged. -/
def standardize_phone_number (phone : String) : String :=
  if (digitsOf phone).length > 10 then "+" ++ digitsOf phone
  else if (digitsOf phone).length = 10 then "+1" ++ digitsOf phone
  else digitsOf phone

/-! ### URL host extraction

Embedding of the use the crawler makes of `urlparse(url).netloc`: the
text between the first double slash and the next slash, question mark
or hash sign (empty when the URL has no double slash). -/

/-- Take characters up to the first path, query or fragment delimiter. -/
def takeUntilDelim : List Char → List Char
  | [] => []
  | c :: t =>
      if c == '/' || c == '?' || c == '#' then []
      else c :: takeUntilDelim t

/-- ASCII lower-casing of one character (Python str.lower on the ASCII
range). -/
def charLower (c : Char) : Char :=
  if 'A' ≤ c ∧ c ≤ 'Z' then Char.ofNat (c.toNat + 32) else c

/-- ASCII lower-casing of a string. -/
def pyLower (s : String) : String := String.mk (s.data.map charLower)

/-- Python str.split on a single separator character. -/
def splitOnChar (c : Char) : List Char → List (List Char)
  | [] => [[]]
  | x :: t =>
      if x = c then [] :: splitOnChar c t
      else
        match splitOnChar c t with
        | h :: r => (x :: h) :: r
        | [] => [[x]]

/-- Join a list of strings with a separator (Python str.join). -/
def joinWith (sep : String) : List String → String
  | [] => ""
  | [x] => x
  | x :: xs => x ++ sep ++ joinWith sep xs

/-- The suffix after the first double slash, if any. -/
def afterDoubleSlash : List Char → Option (List Char)
  | [] => none
  | c1 :: l =>
      match c1, l with
      | '/', '/' :: t => some t
      | _, _ => afterDoubleSlash l

/-- The network location of a URL, as `urlparse(url).netloc` yields it
for the absolute http and https URLs the crawler handles. -/
def netloc (url : String) : String :=
  match afterDoubleSlash url.data with
  | some rest => String.mk (takeUntilDelim rest)
  | none => ""

/-- Python substring membership (`needle in haystack`), on character
lists: `isSubAt` tests a prefix match, `strHasAux` slides over the
haystack. -/
def isSubAt : List Char → List Char → Bool
  | [], _ => true
  | _ :: _, [] => false
  | a :: as, b :: bs => a == b && isSubAt as bs

/-- Sliding-window substring search. -/
def strHasAux (needle : List Char) : List Char → Bool
  | [] => isSubAt needle []
  | c :: t => isSubAt needle (c :: t) || strHasAux needle t

/-- Embedding of the Python string containment operator. -/
def strContains (haystack needle : String) : Bool :=
  strHasAux needle.data haystack.data

/-! ### Data model

The document the crawler builds in `extract_information` and persists
in `store_data`.  Datetimes are integers (days). -/

/-- One phone entry of the identifiers block. -/
structure PhoneEntry where
  number : String
  originalFormat : String
  firstSeen : Int
  lastSeen : Int
  status : String
deriving DecidableEq

/-- One email entry of the identifiers block. -/
structure EmailEntry where
  address : String
  domain : String
  firstSeen : Int
  lastSeen : Int
  status : String
deriving DecidableEq

/-- One crypto-wallet entry of the identifiers block. -/
structure WalletEntry where
  address : String
  currency : String
  firstSeen : Int
  lastSeen : Int
deriving DecidableEq

/-- One social-media entry of the online-presence block.  The source
field named after the wallet kind is called `currency` here and the
platform tag keeps its source name. -/
structure SocialEntry where
  platform : String
  username : String
  profileUrl : String
  status : String
  firstSeen : Int
  lastSeen : Int
deriving DecidableEq

/-- One website entry of the online-presence block. -/
structure Website where
  url : String
  domain : String
  status : String
  firstSeen : Int
  lastSeen : Int
deriving DecidableEq

/-- The identifiers block. -/
structure Identifiers where
  phones : List PhoneEntry
  emails : List EmailEntry
  cryptoWallets : List WalletEntry
deriving DecidableEq

/-- The online-presence block. -/
structure OnlinePresence where
  websites : List Website
  socialMedia : List SocialEntry
deriving DecidableEq

/-- DNS record types queried by `get_domain_info`. -/
inductive RecType where
  | A | MX | NS | TXT
deriving DecidableEq

/-- The per-type DNS record lists built by `get_domain_info` (source
keys A, MX, NS, TXT). -/
structure DnsInfo where
  a : List String
  mx : List String
  ns : List String
  txt : List String
deriving DecidableEq

/-- Lookup of a record type in a `DnsInfo`. -/
def DnsInfo.get (d : DnsInfo) : RecType → List String
  | RecType.A => d.a
  | RecType.MX => d.mx
  | RecType.NS => d.ns
  | RecType.TXT => d.txt

/-- What the WHOIS capability returns on success.  The library may
report a date as absent, a single datetime or a list of datetimes; all
three collapse to a list (empty = absent), which reproduces both the
Python truthiness test and the take-the-first-of-a-list step in
`calculate_risk_score`. -/
structure WhoisData where
  registrar : String
  creation_date : List Int
  expiration_date : List Int
deriving DecidableEq

/-- The dictionary `get_domain_info` returns on success. -/
structure DomainInfoOut where
  domain : String
  registrar : String
  creation_date : List Int
  expiration_date : List Int
  dns_records : DnsInfo
deriving DecidableEq

/-- The extracted-and-stored document.  `domain_info` and `riskScore`
are absent (`none`) on the freshly extracted document and may be added
by `store_data`; a `$set` with a document lacking the `domain_info` key
leaves any previously stored value in place, which the option models. -/
structure Doc where
  dateAdded : Int
  lastUpdated : Int
  status : String
  identifiers : Identifiers
  onlinePresence : OnlinePresence
  domain_info : Option DomainInfoOut
  riskScore : Option Nat
deriving DecidableEq

/-! ### Extraction (crawler.py lines 168-239)

`extract_information` matches every pattern against the concatenation
of the raw markup and its rendered text, passes each match list through
a Python `set`, and builds the document.  Two external inputs are
explicit parameters: `text_content`, the rendered text an HTML parser
produces from the markup (an opaque collaborator in the spec), and `σ`,
the iteration order of a Python `set` built from a match list.  The
language only guarantees that iterating a set enumerates each distinct
element exactly once, in an order that depends on string hashing; `σ`
is therefore an arbitrary function, and behaviors of the program are
the instances of `extract_information` at set orders satisfying
`Admissible` below. -/

/-- A set-order function is admissible when it enumerates exactly the
distinct elements of its input list, each once (in any order) — the
guarantee Python gives for iterating `set(l)`. -/
def Admissible (σ : List String → List String) : Prop :=
  ∀ l : List String, List.Perm (σ l) l.dedup

/-- Embedding of `ScammerIntelCrawler.extract_information`. -/
def extract_information (σ : List String → List String) (url : String)
    (html_content text_content : String) (current_time : Int) : Doc :=
  let full_content := html_content ++ " " ++ text_content
  { dateAdded := current_time
    lastUpdated := current_time
    status := "under_investigation"
    identifiers :=
      { phones := (σ (findAll phoneRE full_content)).map (fun p =>
          { number := standardize_phone_number p, originalFormat := p,
            firstSeen := current_time, lastSeen := current_time, status := "active" })
        emails := (σ (findAll emailRE full_content)).map (fun e =>
          { address := pyLower e,
            domain := pyLower (String.mk ((splitOnChar '@' e.data).getD 1 [])),
            firstSeen := current_time, lastSeen := current_time, status := "active" })
        cryptoWallets := (cryptoPatterns.map (fun cw =>
          (σ (findAll cw.2 full_content)).map (fun w =>
            { address := w, currency := cw.1,
              firstSeen := current_time, lastSeen := current_time }))).flatten }
    onlinePresence :=
      { websites := [{ url := url, domain := netloc url, status := "active",
                       firstSeen := current_time, lastSeen := current_time }]
        socialMedia := (socialPatterns.map (fun sp =>
          (σ (findAll sp.2 full_content)).map (fun prof =>
            { platform := sp.1,
              username := String.mk ((splitOnChar '/' prof.data).getLastD []),
              profileUrl := prof, status := "active",
              firstSeen := current_time, lastSeen := current_time }))).flatten }
    domain_info := none
    riskScore := none }

/-- The persistence guard of `crawl_url` (lines 290-294): store only
when the phones, emails or crypto-wallet lists are non-empty.  The
social-media list is not consulted. -/
def storeCond (e : Doc) : Bool :=
  decide (0 < e.identifiers.phones.length) ||
  decide (0 < e.identifiers.emails.length) ||
  decide (0 < e.identifiers.cryptoWallets.length)

/-! ### Domain enrichment (crawler.py lines 110-138)

`get_domain_info` consults WHOIS and then each of the four DNS record
types, swallowing per-type failures, and returns an empty dictionary
(`none`) when the WHOIS call itself raises.  The WHOIS and DNS network
capabilities are parameters: `none` models a lookup that raises. -/

/-- The DNS block the enrichment loop builds: each failed record type
is left as the empty list the dictionary was initialised with. -/
def dnsBlock (dnsO : String → RecType → Option (List String)) (domain : String) : DnsInfo :=
  { a := (dnsO domain RecType.A).getD []
    mx := (dnsO domain RecType.MX).getD []
    ns := (dnsO domain RecType.NS).getD []
    txt := (dnsO domain RecType.TXT).getD [] }

/-- Embedding of `ScammerIntelCrawler.get_domain_info`. -/
def get_domain_info (whoisO : String → Option WhoisData)
    (dnsO : String → RecType → Option (List String)) (url : String) :
    Option DomainInfoOut :=
  let domain := netloc url
  match whoisO domain with
  | none => none
  | some w =>
      some { domain := domain, registrar := w.registrar,
             creation_date := w.creation_date,
             expiration_date := w.expiration_date,
             dns_records := dnsBlock dnsO domain }

/-! ### Risk scoring (crawler.py lines 140-166) -/

/-- The fixed suspicious-term list. -/
def suspiciousTerms : List String :=
  ["wallet", "crypto", "invest", "binary", "forex", "profit"]

/-- Python rendering of one website dictionary, as it appears inside
`str(data['onlinePresence']['websites'])`; datetimes render through
their repr.  Apostrophes and braces appear escaped. -/
def websiteRepr (w : Website) : String :=
  "\x7b\x27url\x27: \x27" ++ w.url ++ "\x27, \x27domain\x27: \x27" ++ w.domain ++
  "\x27, \x27status\x27: \x27" ++ w.status ++
  "\x27, \x27firstSeen\x27: datetime.datetime(" ++ toString w.firstSeen ++
  "), \x27lastSeen\x27: datetime.datetime(" ++ toString w.lastSeen ++ ")\x7d"

/-- Python rendering of the websites list. -/
def websitesRepr (ws : List Website) : String :=
  "[" ++ joinWith ", " (ws.map websiteRepr) ++ "]"

/-- The suspicious-term test of `calculate_risk_score`: some fixed term
occurs in the lower-cased textual rendering of the websites list. -/
def suspiciousHit (ws : List Website) : Bool :=
  suspiciousTerms.any (fun t => strContains (pyLower (websitesRepr ws)) t)

/-- The creation date the scorer ends up using:
`data.get('domain_info', {}).get('creation_date')` with the Python
falsiness test, taking the first element when the value is a list. -/
def creationOf (data : Doc) : Option Int :=
  match data.domain_info with
  | none => none
  | some di => di.creation_date.head?

/-- Embedding of `ScammerIntelCrawler.calculate_risk_score`.  The
current time is the explicit `now` parameter, standing for the
`datetime.now()` the source reads while computing the domain age. -/
def calculate_risk_score (now : Int) (data : Doc) : Nat :=
  let score0 := 5
  let score1 :=
    match creationOf data with
    | none => score0
    | some c =>
        if now - c < 30 then score0 + 2
        else if now - c < 90 then score0 + 1
        else score0
  let score2 := if 2 < data.identifiers.phones.length then score1 + 1 else score1
  let score3 := if 2 < data.identifiers.emails.length then score2 + 1 else score2
  let score4 := if data.identifiers.cryptoWallets = [] then score3 else score3 + 1
  let score5 := if suspiciousHit data.onlinePresence.websites then score4 + 1 else score4
  min score5 10

/-! ### Persistence (crawler.py lines 241-260)

`store_data` enriches, scores, and issues
`update_one({websites.domain: key}, {$set: data}, upsert=True)` on the
scammers collection.  The collection is a list of documents; the filter
matches a document whose websites array contains an entry with the key
domain; `$set` overwrites every top-level field present in `data` and
leaves absent fields (only `domain_info` can be absent here) at their
stored value. -/

/-- Whether the update filter matches a stored document. -/
def docMatches (key : String) (d : Doc) : Bool :=
  d.onlinePresence.websites.any (fun s => decide (s.domain = key))

/-- Field-wise effect of `$set` with document `new` on stored document
`old`: every field of `new` overwrites, except that a missing
`domain_info` key leaves the stored value. -/
def applySet (old new : Doc) : Doc :=
  { new with domain_info := match new.domain_info with
                            | some d => some d
                            | none => old.domain_info }

/-- `update_one` with `upsert=True`: rewrite the first matching
document, or append the new document when none matches. -/
def updateOne : List Doc → String → Doc → List Doc
  | [], _, new => [new]
  | d :: rest, key, new =>
      if docMatches key d then applySet d new :: rest
      else d :: updateOne rest key new

/-- Embedding of `ScammerIntelCrawler.store_data`: look up domain info
for the first website URL, attach it when the lookup produced anything,
attach the recomputed risk score, and upsert keyed on the first
website domain.  An extracted document always carries exactly one
website; an empty websites list would raise in the source and be
swallowed by the enclosing handler, leaving the collection unchanged. -/
def store_data (whoisO : String → Option WhoisData)
    (dnsO : String → RecType → Option (List String)) (now : Int)
    (db : List Doc) (data : Doc) : List Doc :=
  match data.onlinePresence.websites with
  | [] => db
  | w :: _ =>
      let di := get_domain_info whoisO dnsO w.url
      let data1 := match di with
                   | some d => { data with domain_info := some d }
                   | none => data
      let data2 := { data1 with riskScore := some (calculate_risk_score now data1) }
      updateOne db w.domain data2

/-- The extract-then-maybe-store step of `crawl_url` (lines 289-295):
persist exactly when the guard over phones, emails and crypto wallets
passes. -/
def processExtracted (whoisO : String → Option WhoisData)
    (dnsO : String → RecType → Option (List String)) (now : Int)
    (db : List Doc) (e : Doc) : List Doc :=
  if storeCond e then store_data whoisO dnsO now db e else db

/-! ### Frontier (crawler.py lines 262-266 and 308-311)

`crawl_url` returns immediately when the depth exceeds the bound or
the URL is already in the shared visited set, and otherwise adds the
URL to the set and proceeds to the fetch (the dispatch).  Two
embeddings are given.

The first treats the membership test and the insertion as one atomic
step, which is exactly what happens when the requests are processed
sequentially (a single worker, or any schedule that never interleaves
lines 263 and 266 of two workers).  A run is a fold over the sequence
of `(url, depth)` dispatch requests the recursion generates.

The second makes the test (line 263) and the insertion (line 266)
separate atomic steps of concurrently scheduled workers, which is how
CPython executes them when `start_crawling` runs `crawl_url` on
several threads against the unsynchronised shared set. -/

/-- One frontier decision: skip, or mark visited and dispatch. -/
def crawlStep (maxDepth : Nat) (visited : List String) (u : String) (dep : Nat) :
    List String × Bool :=
  if dep > maxDepth ∨ u ∈ visited then (visited, false)
  else (u :: visited, true)

/-- A sequential run over a list of dispatch requests: the final
visited set and the sublist of requests that were dispatched. -/
def runCrawl (maxDepth : Nat) : List String → List (String × Nat) →
    List String × List (String × Nat)
  | visited, [] => (visited, [])
  | visited, (u, dep) :: rest =>
      let step := crawlStep maxDepth visited u dep
      let tail := runCrawl maxDepth step.1 rest
      (tail.1, if step.2 then (u, dep) :: tail.2 else tail.2)

/-- Program counter and saved guard result of one worker thread that is
executing `crawl_url` at depth 0 on its seed URL: before the guard,
after the guard, or finished. -/
structure RaceThread where
  pc : Nat
  proceed : Bool
deriving DecidableEq

/-- Shared state of the threaded run: the shared visited set, each
thread's local state, and the log of dispatches (thread, url). -/
structure RaceState where
  visited : List String
  threads : List RaceThread
  dispatched : List (Nat × String)
deriving DecidableEq

/-- One atomic step of thread `tid`.  At program counter 0 the thread
evaluates the guard of line 263 (its seed depth is 0, so only the
visited test matters) and records the outcome; at counter 1 it either
inserts its URL into the shared set and dispatches the fetch (lines
266 onward) or returns. -/
def raceStep (maxDepth : Nat) (urls : List String) (s : RaceState) (tid : Nat) :
    RaceState :=
  match s.threads.get? tid, urls.get? tid with
  | some th, some u =>
      if th.pc = 0 then
        let ok := !(decide (0 > maxDepth) || decide (u ∈ s.visited))
        { s with threads := s.threads.set tid { pc := 1, proceed := ok } }
      else if th.pc = 1 then
        if th.proceed then
          { s with visited := u :: s.visited,
                   dispatched := s.dispatched ++ [(tid, u)],
                   threads := s.threads.set tid { th with pc := 2 } }
        else { s with threads := s.threads.set tid { th with pc := 2 } }
      else s
  | _, _ => s

/-- Run the threaded model under an explicit schedule (the list of
thread identifiers in execution order). -/
def runRace (maxDepth : Nat) (urls : List String) (sched : List Nat) : RaceState :=
  sched.foldl (raceStep maxDepth urls)
    { visited := [], threads := urls.map (fun _ => { pc := 0, proceed := false }),
      dispatched := [] }

/-! ### Spec-side definitions

Definitions written from the words of the specification, for comparison
with the source-derived definitions above. -/

/-- Modelled from the spec (glossary): the registrable domain is the
domain suffix-plus-label pair eligible for independent registration,
e.g. example.com as distinct from a full host; rendered here as the
last two dot-separated labels of a host name. -/
def specRegistrableDomain (hostName : String) : String :=
  joinWith "." ((((splitOnChar '.' hostName.data).map String.mk).reverse.take 2).reverse)

/-- The age adjustment of the risk score as the spec words it: +2 below
thirty days, +1 from thirty to ninety, nothing when unknown. -/
def specAgeAdj (now : Int) (cd : Option Int) : Nat :=
  match cd with
  | none => 0
  | some c => if now - c < 30 then 2 else if now - c < 90 then 1 else 0

/-- The risk score as the spec words it: base five plus independent
additive adjustments, capped at ten. -/
def score_spec (now : Int) (data : Doc) : Nat :=
  min (5 + specAgeAdj now (creationOf data)
         + (if 2 < data.identifiers.phones.length then 1 else 0)
         + (if 2 < data.identifiers.emails.length then 1 else 0)
         + (if data.identifiers.cryptoWallets = [] then 0 else 1)
         + (if suspiciousHit data.onlinePresence.websites then 1 else 0)) 10

/-- A stored document is well-shaped when its websites array is a
single entry — the shape every document written by `store_data` has,
since `$set` always rewrites the array to the singleton built by
`extract_information`. -/
def goodDoc (d : Doc) : Prop :=
  ∃ w, d.onlinePresence.websites = [w]

/-- The key a stored document answers to: the domain of its single
website entry. -/
def keyOf (d : Doc) : String :=
  ((d.onlinePresence.websites.head?).map (fun w => w.domain)).getD ""

/-- Collection invariant: every document is well-shaped and document
keys are pairwise distinct. -/
def StoreInv (db : List Doc) : Prop :=
  (∀ d ∈ db, goodDoc d) ∧ (db.map keyOf).Nodup

/-! ### Shared concrete instances used by witnesses and counterexamples -/

/-- A WHOIS capability whose every lookup raises. -/
def wo0 : String → Option WhoisData := fun _ => none

/-- A DNS capability whose every lookup raises. -/
def dns0 : String → RecType → Option (List String) := fun _ _ => none

/-- A document with no artifacts, no websites and no domain info. -/
def d0 : Doc :=
  { dateAdded := 0, lastUpdated := 0, status := "under_investigation",
    identifiers := { phones := [], emails := [], cryptoWallets := [] },
    onlinePresence := { websites := [], socialMedia := [] },
    domain_info := none, riskScore := none }

/-! ### C6 — phone normalization -/

/-- C6: for every input string, phone normalization strips all
non-digit characters and then prefixes a plus when more than ten digits
remain, a plus-one when exactly ten remain, and otherwise returns the
digit string unchanged; in particular the parenthesised example
normalizes to +12345678901. -/
theorem C6_phone_normalization (s : String) :
    ((digitsOf s).length > 10 → standardize_phone_number s = "+" ++ digitsOf s)
    ∧ ((digitsOf s).length = 10 → standardize_phone_number s = "+1" ++ digitsOf s)
    ∧ ((digitsOf s).length < 10 → standardize_phone_number s = digitsOf s)
    ∧ standardize_phone_number "(234) 567-8901" = "+12345678901" := by
  refine ⟨fun h => ?_, fun h => ?_, fun h => ?_, by decide⟩ <;>
    unfold standardize_phone_number <;> split_ifs <;> first | rfl | omega

/-- Witness for C6 at the concrete example from the spec. -/
theorem C6_phone_normalization_witness :
    (digitsOf "(234) 567-8901").length = 10 ∧
    standardize_phone_number "(234) 567-8901" = "+1" ++ digitsOf "(234) 567-8901" :=
  ⟨by decide, (C6_phone_normalization "(234) 567-8901").2.1 (by decide)⟩

/-! ### C10 — implicit lower bound of the risk score -/

/-- C10: the risk score is always at least the base score of five and
at most ten: every adjustment is non-negative and only the upper end is
capped, so the result lies in the interval from five to ten. -/
theorem C10_score_bounds (now : Int) (data : Doc) :
    5 ≤ calculate_risk_score now data ∧ calculate_risk_score now data ≤ 10 := by
  unfold calculate_risk_score
  generalize suspiciousHit data.onlinePresence.websites = sb
  generalize data.identifiers.cryptoWallets = wl
  generalize data.identifiers.emails.length = el
  generalize data.identifiers.phones.length = pl
  generalize creationOf data = o
  cases o <;> dsimp only <;> split_ifs <;> decide

/-! ### C7 — risk score structure and bounds -/

/-- The let-chain of the source scorer equals the additive spec
formulation. -/
lemma calc_eq_spec (now : Int) (data : Doc) :
    calculate_risk_score now data = score_spec now data := by
  unfold calculate_risk_score score_spec specAgeAdj
  generalize suspiciousHit data.onlinePresence.websites = sb
  generalize data.identifiers.cryptoWallets = wl
  generalize data.identifiers.emails.length = el
  generalize data.identifiers.phones.length = pl
  generalize creationOf data = o
  cases o <;> dsimp only <;> split_ifs <;> rfl

/-- C7: the risk score equals the spec formulation — base five plus the
age, phone-count, email-count, wallet and suspicious-term adjustments,
capped at ten — it never exceeds ten, and a record with no creation
date, at most two phones, at most two emails, no wallets and no
suspicious term scores exactly five. -/
theorem C7_risk_score_spec (now : Int) (data : Doc) :
    calculate_risk_score now data = score_spec now data
    ∧ calculate_risk_score now data ≤ 10
    ∧ (creationOf data = none → data.identifiers.phones.length ≤ 2 →
       data.identifiers.emails.length ≤ 2 → data.identifiers.cryptoWallets = [] →
       suspiciousHit data.onlinePresence.websites = false →
       calculate_risk_score now data = 5) := by
  refine ⟨calc_eq_spec now data, ?_, ?_⟩
  · rw [calc_eq_spec]
    exact Nat.min_le_right _ _
  · intro h1 h2 h3 h4 h5
    rw [calc_eq_spec]
    unfold score_spec specAgeAdj
    rw [h1, h4, h5]
    rw [if_neg (by omega : ¬ 2 < data.identifiers.phones.length),
        if_neg (by omega : ¬ 2 < data.identifiers.emails.length)]
    dsimp only
    decide

/-- Witness for C7 on an empty record at time zero. -/
theorem C7_risk_score_spec_witness :
    creationOf d0 = none ∧ d0.identifiers.phones.length ≤ 2 ∧
    d0.identifiers.emails.length ≤ 2 ∧ d0.identifiers.cryptoWallets = [] ∧
    suspiciousHit d0.onlinePresence.websites = false ∧
    calculate_risk_score 0 d0 = 5 :=
  ⟨rfl, by decide, by decide, rfl, by decide,
   (C7_risk_score_spec 0 d0).2.2 rfl (by decide) (by decide) rfl (by decide)⟩

/-! ### C4 — the scorer reads the current time -/

/-- A record whose domain info carries a creation date at day zero. -/
def rC4 : Doc :=
  { dateAdded := 0, lastUpdated := 0, status := "under_investigation",
    identifiers := { phones := [], emails := [], cryptoWallets := [] },
    onlinePresence := { websites := [], socialMedia := [] },
    domain_info := some { domain := "d", registrar := "r", creation_date := [0],
                          expiration_date := [], dns_records := ⟨[], [], [], []⟩ },
    riskScore := none }

/-- Counterexample to C4 as stated: the scorer reads the current time
(the source calls datetime.now() to compute the domain age), so the
same record scores differently at day 10 (age below thirty, plus two)
and at day 50 (age in the thirty-to-ninety band, plus one). -/
theorem C4_now_dependent_cex :
    calculate_risk_score 10 rC4 = 7 ∧ calculate_risk_score 50 rC4 = 6 ∧
    calculate_risk_score 10 rC4 ≠ calculate_risk_score 50 rC4 := by
  refine ⟨by decide, by decide, by decide⟩

/-- C4 amended: the scorer performs no I/O other than reading the
current time; it is a deterministic function of the record and that
time, and on records without a creation date it does not depend on the
time at all. -/
theorem C4_time_independent_without_creation (now1 now2 : Int) (data : Doc)
    (h : creationOf data = none) :
    calculate_risk_score now1 data = calculate_risk_score now2 data := by
  unfold calculate_risk_score
  rw [h]

/-- Witness for the amended C4 on the empty record. -/
theorem C4_time_independent_witness :
    creationOf d0 = none ∧ calculate_risk_score 3 d0 = calculate_risk_score 99 d0 :=
  ⟨rfl, C4_time_independent_without_creation 3 99 d0 rfl⟩

/-! ### C3 — the persistence guard ignores social media -/

/-- Counterexample to C3 as stated: a page whose only artifact is a
social-media profile (a telegram link) yields a non-empty socialMedia
category, yet the guard of crawl_url (which looks only at phones,
emails and crypto wallets) does not persist it. -/
theorem C3_social_only_not_stored_cex :
    (extract_information List.dedup "http://t.co/" "t.me/ab" "" 0).onlinePresence.socialMedia ≠ []
    ∧ storeCond (extract_information List.dedup "http://t.co/" "t.me/ab" "" 0) = false
    ∧ processExtracted wo0 dns0 0 [] (extract_information List.dedup "http://t.co/" "t.me/ab" "" 0) = [] := by
  refine ⟨by decide, by decide, by decide⟩

/-- C3 amended: the worker persists a record if and only if the
extraction yields a phone, an email or a crypto wallet; the
social-media category is not consulted, and a page with all categories
empty is never written. -/
theorem C3_store_guard (wo : String → Option WhoisData)
    (dns : String → RecType → Option (List String)) (now : Int)
    (db : List Doc) (e : Doc) :
    (storeCond e = true ↔
      (e.identifiers.phones ≠ [] ∨ e.identifiers.emails ≠ [] ∨
       e.identifiers.cryptoWallets ≠ []))
    ∧ (storeCond e = false → processExtracted wo dns now db e = db)
    ∧ (storeCond e = true → processExtracted wo dns now db e = store_data wo dns now db e) := by
  refine ⟨?_, fun h => ?_, fun h => ?_⟩
  · simp [storeCond, List.length_pos, or_assoc]
  · simp [processExtracted, h]
  · simp [processExtracted, h]

/-- Witness for the amended C3 on the social-only page. -/
theorem C3_store_guard_witness :
    storeCond (extract_information List.dedup "http://t.co/" "t.me/ab" "" 0) = false ∧
    processExtracted wo0 dns0 0 []
      (extract_information List.dedup "http://t.co/" "t.me/ab" "" 0) = [] :=
  ⟨by decide,
   (C3_store_guard wo0 dns0 0 []
     (extract_information List.dedup "http://t.co/" "t.me/ab" "" 0)).2.1 (by decide)⟩

/-! ### C9 — soft-failing domain enrichment -/

/-- A WHOIS capability that answers every lookup. -/
def woOK : String → Option WhoisData :=
  fun _ => some { registrar := "NameCheap", creation_date := [100], expiration_date := [500] }

/-- A DNS capability whose MX lookups raise while the other record
types answer. -/
def dnsMXFail : String → RecType → Option (List String) :=
  fun _ t =>
    match t with
    | RecType.MX => none
    | RecType.A => some ["1.2.3.4"]
    | RecType.NS => some ["ns1.e.co"]
    | RecType.TXT => some ["v=spf1"]

/-- C9: enrichment fails softly.  When WHOIS answers, the result is the
full domain-info dictionary and each DNS record type holds exactly what
its lookup returned, a failed type being recorded as the empty list
while the other types are still queried; when WHOIS raises, the result
is the empty dictionary and no exception escapes — in particular the
store step still proceeds, writing the record without domain info. -/
theorem C9_enrichment_soft_fail (wo : String → Option WhoisData)
    (dns : String → RecType → Option (List String)) (url : String) (w : WhoisData)
    (now : Int) (db : List Doc) (data : Doc) (site : Website) (rest : List Website) :
    (wo (netloc url) = some w →
      get_domain_info wo dns url =
        some { domain := netloc url, registrar := w.registrar,
               creation_date := w.creation_date, expiration_date := w.expiration_date,
               dns_records := dnsBlock dns (netloc url) }
      ∧ ∀ t, (dnsBlock dns (netloc url)).get t = (dns (netloc url) t).getD [])
    ∧ (wo (netloc url) = none → get_domain_info wo dns url = none)
    ∧ (wo (netloc site.url) = none → data.onlinePresence.websites = site :: rest →
        store_data wo dns now db data =
          updateOne db site.domain
            { data with riskScore := some (calculate_risk_score now data) }) := by
  refine ⟨fun h => ⟨?_, fun t => ?_⟩, fun h => ?_, fun h hw => ?_⟩
  · unfold get_domain_info
    dsimp only
    rw [h]
  · cases t <;> rfl
  · unfold get_domain_info
    dsimp only
    rw [h]
  · unfold store_data
    rw [hw]
    unfold get_domain_info
    dsimp only
    rw [h]

/-- Witness for C9: a run where MX fails but A, NS and TXT answer, a
run where WHOIS raises, and a store that proceeds past the raised
WHOIS. -/
theorem C9_enrichment_soft_fail_witness :
    (get_domain_info woOK dnsMXFail "http://e.co/x" =
       some { domain := netloc "http://e.co/x", registrar := "NameCheap",
              creation_date := [100], expiration_date := [500],
              dns_records := dnsBlock dnsMXFail (netloc "http://e.co/x") }
     ∧ (dnsBlock dnsMXFail (netloc "http://e.co/x")).get RecType.MX =
         (dnsMXFail (netloc "http://e.co/x") RecType.MX).getD []
     ∧ (dnsBlock dnsMXFail (netloc "http://e.co/x")).get RecType.A =
         (dnsMXFail (netloc "http://e.co/x") RecType.A).getD [])
    ∧ get_domain_info wo0 dnsMXFail "http://e.co/x" = none := by
  refine ⟨⟨?_, ?_, ?_⟩, ?_⟩
  · exact ((C9_enrichment_soft_fail woOK dnsMXFail "http://e.co/x"
      { registrar := "NameCheap", creation_date := [100], expiration_date := [500] }
      0 [] d0 { url := "", domain := "", status := "", firstSeen := 0, lastSeen := 0 }
      []).1 rfl).1
  · exact ((C9_enrichment_soft_fail woOK dnsMXFail "http://e.co/x"
      { registrar := "NameCheap", creation_date := [100], expiration_date := [500] }
      0 [] d0 { url := "", domain := "", status := "", firstSeen := 0, lastSeen := 0 }
      []).1 rfl).2 RecType.MX
  · exact ((C9_enrichment_soft_fail woOK dnsMXFail "http://e.co/x"
      { registrar := "NameCheap", creation_date := [100], expiration_date := [500] }
      0 [] d0 { url := "", domain := "", status := "", firstSeen := 0, lastSeen := 0 }
      []).1 rfl).2 RecType.A
  · exact (C9_enrichment_soft_fail wo0 dnsMXFail "http://e.co/x"
      { registrar := "NameCheap", creation_date := [100], expiration_date := [500] }
      0 [] d0 { url := "", domain := "", status := "", firstSeen := 0, lastSeen := 0 }
      []).2.1 rfl

/-! ### C8 — at-most-once dispatch and the depth bound -/

/-- Unfolding lemma: a skipped request leaves the run unchanged. -/
lemma runCrawl_cons_skip (m : Nat) (v : List String) (u : String) (dep : Nat)
    (rest : List (String × Nat)) (h : dep > m ∨ u ∈ v) :
    runCrawl m v ((u, dep) :: rest) = runCrawl m v rest := by
  simp [runCrawl, crawlStep, if_pos h]

/-- Unfolding lemma: a dispatched request is recorded and the URL
joins the visited set for the remainder of the run. -/
lemma runCrawl_cons_go (m : Nat) (v : List String) (u : String) (dep : Nat)
    (rest : List (String × Nat)) (h : ¬(dep > m ∨ u ∈ v)) :
    runCrawl m v ((u, dep) :: rest) =
      ((runCrawl m (u :: v) rest).1, (u, dep) :: (runCrawl m (u :: v) rest).2) := by
  simp [runCrawl, crawlStep, if_neg h]

/-- A URL already in the visited set is never dispatched later in the
run. -/
lemma runCrawl_not_mem (m : Nat) (reqs : List (String × Nat)) :
    ∀ (v : List String) (u : String), u ∈ v →
      u ∉ (runCrawl m v reqs).2.map Prod.fst := by
  induction reqs with
  | nil => intro v u _; simp [runCrawl]
  | cons r rest ih =>
      intro v u hu
      obtain ⟨w, dep⟩ := r
      by_cases hc : dep > m ∨ w ∈ v
      · rw [runCrawl_cons_skip m v w dep rest hc]
        exact ih v u hu
      · rw [runCrawl_cons_go m v w dep rest hc]
        simp only [List.map_cons, List.mem_cons, not_or]
        refine ⟨?_, ih (w :: v) u (List.mem_cons_of_mem w hu)⟩
        intro he
        exact (not_or.mp hc).2 (he ▸ hu)

/-- C8 amended, positive part: with the guard and the insertion taken
as one atomic step (as in any sequential run), no URL is dispatched
twice and every dispatched request respects the depth bound. -/
lemma runCrawl_once_and_depth (m : Nat) (reqs : List (String × Nat)) :
    ∀ v : List String,
      ((runCrawl m v reqs).2.map Prod.fst).Nodup ∧
      (runCrawl m v reqs).2.all (fun p => decide (p.2 ≤ m)) = true := by
  induction reqs with
  | nil => intro v; simp [runCrawl]
  | cons r rest ih =>
      intro v
      obtain ⟨w, dep⟩ := r
      by_cases hc : dep > m ∨ w ∈ v
      · rw [runCrawl_cons_skip m v w dep rest hc]
        exact ih v
      · rw [runCrawl_cons_go m v w dep rest hc]
        have hd : ¬ dep > m := (not_or.mp hc).1
        refine ⟨?_, ?_⟩
        · simp only [List.map_cons, List.nodup_cons]
          exact ⟨runCrawl_not_mem m rest (w :: v) w (List.mem_cons_self w v),
                 (ih (w :: v)).1⟩
        · simp only [List.all_cons, Bool.and_eq_true, decide_eq_true_eq]
          exact ⟨by omega, (ih (w :: v)).2⟩

/-- C8 amended: over any sequence of dispatch requests and any initial
visited set, a sequential run of the crawl_url guard dispatches each
URL at most once (the dispatched URLs are pairwise distinct) and never
dispatches at a depth beyond the bound.  The at-most-once half relies
on the membership test and the insertion being one atomic step, which
holds in a sequential run but not across unsynchronised threads — see
the counterexample on the threaded model. -/
theorem C8_at_most_once_sequential (m : Nat) (v : List String)
    (reqs : List (String × Nat)) :
    ((runCrawl m v reqs).2.map Prod.fst).Nodup ∧
    (runCrawl m v reqs).2.all (fun p => decide (p.2 ≤ m)) = true :=
  runCrawl_once_and_depth m reqs v

/-- Counterexample to C8 as stated: in the threaded model of
start_crawling — where the membership test of line 263 and the
insertion of line 266 are separate atomic steps against the
unsynchronised shared set — two workers seeded with the same URL can
both pass the guard before either inserts, and the URL is dispatched
twice in one run. -/
theorem C8_race_double_dispatch_cex :
    (runRace 3 ["u", "u"] [0, 1, 0, 1]).dispatched = [(0, "u"), (1, "u")]
    ∧ ¬ ((runRace 3 ["u", "u"] [0, 1, 0, 1]).dispatched.map Prod.snd).Nodup := by
  refine ⟨by decide, by decide⟩

/-! ### C1 — what the upsert actually does -/

/-- The filter only looks at the websites block, which a field-wise
set rewrites wholesale, so matching is invariant under `applySet`. -/
lemma docMatches_applySet (key : String) (old new : Doc) :
    docMatches key (applySet old new) = docMatches key new := rfl

/-- Field-wise setting is associative in the stored document. -/
lemma applySet_assoc (d a b : Doc) :
    applySet (applySet d a) b = applySet d (applySet a b) := by
  unfold applySet
  cases hb : b.domain_info <;> cases ha : a.domain_info <;> simp [hb, ha]

/-- Setting a document that carries no domain info over a document
that carries none leaves exactly the new document. -/
lemma applySet_of_none (a b : Doc) (ha : a.domain_info = none)
    (hb : b.domain_info = none) : applySet a b = b := by
  unfold applySet
  rw [hb]
  dsimp only
  rw [ha, ← hb]

/-- Setting a document that carries domain info leaves exactly the new
document. -/
lemma applySet_of_some (a b : Doc) (d : DomainInfoOut)
    (hb : b.domain_info = some d) : applySet a b = b := by
  unfold applySet
  rw [hb]
  dsimp only
  rw [← hb]

/-- Two successive upserts on the same key collapse: the second
rewrite lands on the document the first one produced. -/
lemma updateOne_twice (db : List Doc) (key : String) (a b : Doc)
    (ha : docMatches key a = true) :
    updateOne (updateOne db key a) key b = updateOne db key (applySet a b) := by
  induction db with
  | nil => simp [updateOne, docMatches_applySet, ha]
  | cons d rest ih =>
      by_cases hd : docMatches key d = true
      · simp [updateOne, hd, docMatches_applySet, ha, applySet_assoc]
      · simp [updateOne, hd, ih]

/-- Storing the same page twice leaves exactly the collection the
second store alone would produce: the `$set` upsert keeps nothing of
the first write beyond what the second rewrites identically. -/
lemma store_data_twice (wo : String → Option WhoisData)
    (dns : String → RecType → Option (List String)) (now1 now2 : Int)
    (db : List Doc) (dataA dataB : Doc) (sa sb : Website) (ra rb : List Website)
    (hA : dataA.onlinePresence.websites = sa :: ra)
    (hB : dataB.onlinePresence.websites = sb :: rb)
    (hdom : sa.domain = sb.domain) (hurl : sa.url = sb.url)
    (hAdi : dataA.domain_info = none) (hBdi : dataB.domain_info = none) :
    store_data wo dns now2 (store_data wo dns now1 db dataA) dataB =
      store_data wo dns now2 db dataB := by
  unfold store_data
  rw [hA, hB]
  dsimp only
  rw [hurl, hdom]
  have hmatchA : docMatches sb.domain dataA = true := by
    simp [docMatches, hA, hdom]
  cases ho : get_domain_info wo dns sb.url <;> dsimp only
  · rw [updateOne_twice db sb.domain { dataA with riskScore := some (calculate_risk_score now1 dataA) } { dataB with riskScore := some (calculate_risk_score now2 dataB) } hmatchA, applySet_of_none { dataA with riskScore := some (calculate_risk_score now1 dataA) } { dataB with riskScore := some (calculate_risk_score now2 dataB) } hAdi hBdi]
  · rename_i d
    rw [updateOne_twice db sb.domain { dataA with domain_info := some d, riskScore := some (calculate_risk_score now1 { dataA with domain_info := some d }) } { dataB with domain_info := some d, riskScore := some (calculate_risk_score now2 { dataB with domain_info := some d }) } hmatchA, applySet_of_some { dataA with domain_info := some d, riskScore := some (calculate_risk_score now1 { dataA with domain_info := some d }) } { dataB with domain_info := some d, riskScore := some (calculate_risk_score now2 { dataB with domain_info := some d }) } d rfl]

/-- C1 amended: the upsert is a whole-document `$set`, not a union, so
applying the same page-derived merge twice yields exactly the
collection produced by the second application alone: every field —
dateAdded, lastUpdated, per-item firstSeen and lastSeen, and the
identifier, website and social-media arrays themselves — takes the
value of the later extraction, and nothing of the earlier write
survives (except a stored domain_info when the later enrichment
fails, which the two equal-oracle runs here produce identically). -/
theorem C1_store_twice_eq_once (wo : String → Option WhoisData)
    (dns : String → RecType → Option (List String))
    (now1 now2 t1 t2 : Int) (db : List Doc) (σ : List String → List String)
    (url html text : String) :
    store_data wo dns now2
        (store_data wo dns now1 db (extract_information σ url html text t1))
        (extract_information σ url html text t2)
      = store_data wo dns now2 db (extract_information σ url html text t2) :=
  store_data_twice wo dns now1 now2 db _ _
    { url := url, domain := netloc url, status := "active", firstSeen := t1, lastSeen := t1 }
    { url := url, domain := netloc url, status := "active", firstSeen := t2, lastSeen := t2 }
    [] [] rfl rfl rfl rfl rfl rfl

/-- A previously persisted record for the host of the counterexample:
added at day 0, with one phone identifier on file. -/
def docOld : Doc :=
  { dateAdded := 0, lastUpdated := 0, status := "under_investigation",
    identifiers :=
      { phones := [{ number := "+15551234567", originalFormat := "555-123-4567",
                     firstSeen := 0, lastSeen := 0, status := "active" }],
        emails := [], cryptoWallets := [] },
    onlinePresence :=
      { websites := [{ url := "http://www.example.com/x", domain := "www.example.com",
                       status := "active", firstSeen := 0, lastSeen := 0 }],
        socialMedia := [] },
    domain_info := none, riskScore := some 5 }

/-- Counterexample to C1 as stated: upserting a newly extracted page
for the same domain at day 5 does not union identifiers or preserve
dateAdded — the stored record afterwards has dateAdded 5 (not the
original 0) and an empty phones array (the original phone entry is
gone), because `$set` replaces the whole identifiers and onlinePresence
blocks and the dateAdded field. -/
theorem C1_store_overwrites_cex :
    (store_data wo0 dns0 5 [docOld]
        (extract_information List.dedup "http://www.example.com/y" "" "" 5)).length = 1
    ∧ (store_data wo0 dns0 5 [docOld]
        (extract_information List.dedup "http://www.example.com/y" "" "" 5)).map
          (fun d => d.dateAdded) = [5]
    ∧ (store_data wo0 dns0 5 [docOld]
        (extract_information List.dedup "http://www.example.com/y" "" "" 5)).map
          (fun d => d.identifiers.phones) = [[]] := by
  refine ⟨by decide, by decide, by decide⟩

/-! ### C2 — what the persistence key actually is -/

/-- For a well-shaped document the filter test is exactly a key
comparison. -/
lemma docMatches_of_good {d : Doc} {k : String} (h : goodDoc d) :
    docMatches k d = true ↔ keyOf d = k := by
  obtain ⟨w, hw⟩ := h
  simp [docMatches, keyOf, hw]

/-- Field-wise setting keeps the key of the incoming document. -/
lemma keyOf_applySet (old new : Doc) : keyOf (applySet old new) = keyOf new := rfl

/-- Unfolding lemma: the upsert rewrites the first matching document. -/
lemma updateOne_cons_match {k : String} {d : Doc} (rest : List Doc) (new : Doc)
    (h : docMatches k d = true) :
    updateOne (d :: rest) k new = applySet d new :: rest := by
  simp [updateOne, h]

/-- Unfolding lemma: the upsert walks past a non-matching document. -/
lemma updateOne_cons_nomatch {k : String} {d : Doc} (rest : List Doc) (new : Doc)
    (h : ¬ docMatches k d = true) :
    updateOne (d :: rest) k new = d :: updateOne rest k new := by
  simp [updateOne, h]

/-- Every key present after an upsert was present before or is the
upserted key. -/
lemma mem_keys_updateOne (db : List Doc) (k : String) (new : Doc)
    (hk : keyOf new = k) :
    ∀ x ∈ (updateOne db k new).map keyOf, x ∈ db.map keyOf ∨ x = k := by
  induction db with
  | nil =>
      intro x hx
      simp only [updateOne, List.map_cons, List.map_nil, List.mem_singleton] at hx
      exact Or.inr (hx.trans hk)
  | cons d rest ih =>
      intro x hx
      by_cases hd : docMatches k d = true
      · rw [updateOne_cons_match rest new hd] at hx
        simp only [List.map_cons, List.mem_cons] at hx
        rcases hx with hx | hx
        · exact Or.inr (hx.trans ((keyOf_applySet d new).trans hk))
        · exact Or.inl (List.mem_cons_of_mem _ hx)
      · rw [updateOne_cons_nomatch rest new hd] at hx
        simp only [List.map_cons, List.mem_cons] at hx
        rcases hx with hx | hx
        · exact Or.inl (by simp [hx])
        · rcases ih x hx with h | h
          · exact Or.inl (List.mem_cons_of_mem _ h)
          · exact Or.inr h

/-- An upsert of a well-shaped document keeps every stored document
well-shaped. -/
lemma updateOne_good (db : List Doc) (k : String) (new : Doc)
    (hg : goodDoc new) (h : ∀ d ∈ db, goodDoc d) :
    ∀ d ∈ updateOne db k new, goodDoc d := by
  induction db with
  | nil =>
      intro d hd
      simp only [updateOne, List.mem_singleton] at hd
      rw [hd]; exact hg
  | cons e rest ih =>
      intro d hd
      by_cases he : docMatches k e = true
      · rw [updateOne_cons_match rest new he] at hd
        rcases List.mem_cons.mp hd with hd | hd
        · rw [hd]
          obtain ⟨w, hw⟩ := hg
          exact ⟨w, hw⟩
        · exact h d (List.mem_cons_of_mem _ hd)
      · rw [updateOne_cons_nomatch rest new he] at hd
        rcases List.mem_cons.mp hd with hd | hd
        · rw [hd]; exact h e (List.mem_cons_self _ _)
        · exact ih (fun x hx => h x (List.mem_cons_of_mem _ hx)) d hd

/-- An upsert of a well-shaped document keeps stored keys pairwise
distinct. -/
lemma updateOne_nodup (db : List Doc) (k : String) (new : Doc)
    (_hg : goodDoc new) (hk : keyOf new = k)
    (hgood : ∀ d ∈ db, goodDoc d) (hnd : (db.map keyOf).Nodup) :
    ((updateOne db k new).map keyOf).Nodup := by
  induction db with
  | nil => simp [updateOne]
  | cons d rest ih =>
      simp only [List.map_cons, List.nodup_cons] at hnd
      by_cases hd : docMatches k d = true
      · have hkd : keyOf d = k :=
          (docMatches_of_good (hgood d (List.mem_cons_self _ _))).mp hd
        rw [updateOne_cons_match rest new hd]
        simp only [List.map_cons, List.nodup_cons, keyOf_applySet, hk]
        rw [← hkd]
        exact hnd
      · have hkd : keyOf d ≠ k := fun he =>
          hd ((docMatches_of_good (hgood d (List.mem_cons_self _ _))).mpr he)
        rw [updateOne_cons_nomatch rest new hd]
        simp only [List.map_cons, List.nodup_cons]
        refine ⟨fun hmem => ?_,
                ih (fun x hx => hgood x (List.mem_cons_of_mem _ hx)) hnd.2⟩
        rcases mem_keys_updateOne rest k new hk (keyOf d) hmem with h | h
        · exact hnd.1 h
        · exact hkd h

/-- Upserting a well-shaped document under its own key preserves the
collection invariant. -/
lemma store_inv_updateOne (db : List Doc) (k : String) (new : Doc)
    (hg : goodDoc new) (hk : keyOf new = k) (h : StoreInv db) :
    StoreInv (updateOne db k new) :=
  ⟨updateOne_good db k new hg h.1, updateOne_nodup db k new hg hk h.1 h.2⟩

/-- Under the collection invariant at most one stored document answers
to any key. -/
lemma filter_le_one_of_inv (db : List Doc) (h : StoreInv db) (k : String) :
    (db.filter (docMatches k)).length ≤ 1 := by
  obtain ⟨hg, hnd⟩ := h
  induction db with
  | nil => simp
  | cons d rest ih =>
      simp only [List.map_cons, List.nodup_cons] at hnd
      by_cases hd : docMatches k d = true
      · have hkd : keyOf d = k :=
          (docMatches_of_good (hg d (List.mem_cons_self _ _))).mp hd
        have hrest : rest.filter (docMatches k) = [] := by
          rw [List.filter_eq_nil_iff]
          intro a ha hmatch
          have hka : keyOf a = k :=
            (docMatches_of_good (hg a (List.mem_cons_of_mem _ ha))).mp (by simpa using hmatch)
          exact hnd.1 (by rw [hkd, ← hka]; exact List.mem_map_of_mem keyOf ha)
        simp [List.filter_cons, hd, hrest]
      · simp only [List.filter_cons, hd, if_false]
        exact ih (fun x hx => hg x (List.mem_cons_of_mem _ hx)) hnd.2

/-- Storing a single-website document preserves the collection
invariant. -/
lemma store_data_inv (wo : String → Option WhoisData)
    (dns : String → RecType → Option (List String)) (now : Int)
    (db : List Doc) (data : Doc) (site : Website)
    (hw : data.onlinePresence.websites = [site]) (h : StoreInv db) :
    StoreInv (store_data wo dns now db data) := by
  unfold store_data
  rw [hw]
  dsimp only
  cases ho : get_domain_info wo dns site.url <;> dsimp only
  · exact store_inv_updateOne db site.domain _ ⟨site, hw⟩ (by simp [keyOf, hw]) h
  · exact store_inv_updateOne db site.domain _ ⟨site, hw⟩ (by simp [keyOf, hw]) h

/-- C2 amended: persistence is keyed by the URL host (netloc), not the
registrable domain.  Starting from a collection in which every document
is the single-website record the store writes and keys are pairwise
distinct, storing an extracted page preserves that shape, and for
every key at most one stored document matches the upsert filter — one
record per host. -/
theorem C2_per_host_uniqueness (wo : String → Option WhoisData)
    (dns : String → RecType → Option (List String)) (now t : Int)
    (db : List Doc) (σ : List String → List String) (url html text : String)
    (h : StoreInv db) :
    StoreInv (store_data wo dns now db (extract_information σ url html text t))
    ∧ ∀ k, ((store_data wo dns now db
        (extract_information σ url html text t)).filter (docMatches k)).length ≤ 1 := by
  have h2 := store_data_inv wo dns now db (extract_information σ url html text t)
    { url := url, domain := netloc url, status := "active", firstSeen := t, lastSeen := t }
    rfl h
  exact ⟨h2, fun k => filter_le_one_of_inv _ h2 k⟩

/-- Witness for the amended C2: one store into the empty collection. -/
theorem C2_per_host_uniqueness_witness :
    StoreInv (store_data wo0 dns0 0 []
      (extract_information List.dedup "http://h.co/p" "" "" 0))
    ∧ ((store_data wo0 dns0 0 []
      (extract_information List.dedup "http://h.co/p" "" "" 0)).filter
        (docMatches "h.co")).length ≤ 1 :=
  ⟨(C2_per_host_uniqueness wo0 dns0 0 0 [] List.dedup "http://h.co/p" "" ""
      ⟨fun d hd => absurd hd (List.not_mem_nil d), List.nodup_nil⟩).1,
   (C2_per_host_uniqueness wo0 dns0 0 0 [] List.dedup "http://h.co/p" "" ""
      ⟨fun d hd => absurd hd (List.not_mem_nil d), List.nodup_nil⟩).2 "h.co"⟩

/-- Counterexample to C2 as stated: two stored pages under one
registrable domain but different hosts produce two records, because
the key is `urlparse(url).netloc` — the full host — not the
registrable domain. -/
theorem C2_registrable_domain_cex :
    (processExtracted wo0 dns0 2
        (processExtracted wo0 dns0 1 []
          (extract_information List.dedup "http://www.example.com/x" "a@b.co" "" 1))
        (extract_information List.dedup "http://example.com/y" "a@b.co" "" 2)).length = 2
    ∧ specRegistrableDomain (netloc "http://www.example.com/x") =
        specRegistrableDomain (netloc "http://example.com/y")
    ∧ netloc "http://www.example.com/x" ≠ netloc "http://example.com/y" := by
  refine ⟨by decide, by decide, by decide⟩

/-! ### C5 — deduplication holds, insertion order does not -/

/-- Reading back the raw match from a phone entry recovers the match
list. -/
lemma map_originalFormat (l : List String) (t : Int) :
    (l.map (fun p => ({ number := standardize_phone_number p, originalFormat := p,
                        firstSeen := t, lastSeen := t,
                        status := "active" } : PhoneEntry))).map
      (fun e => e.originalFormat) = l := by
  induction l with
  | nil => rfl
  | cons x xs ih => simp [ih]

/-- Reading back the address from an email entry gives the lowered
match list. -/
lemma map_emailAddress (l : List String) (t : Int) :
    (l.map (fun e => ({ address := pyLower e,
                        domain := pyLower (String.mk ((splitOnChar '@' e.data).getD 1 [])),
                        firstSeen := t, lastSeen := t,
                        status := "active" } : EmailEntry))).map
      (fun x => x.address) = l.map pyLower := by
  induction l with
  | nil => rfl
  | cons x xs ih => simp [ih]

/-- Reading back the address from a wallet entry recovers the match
list, whatever the currency tag. -/
lemma map_walletAddress (l : List String) (c : String) (t : Int) :
    (l.map (fun w => ({ address := w, currency := c,
                        firstSeen := t, lastSeen := t } : WalletEntry))).map
      (fun x => x.address) = l := by
  induction l with
  | nil => rfl
  | cons x xs ih => simp [ih]

/-- Reading back the profile URL from a social entry recovers the
match list, whatever the platform tag. -/
lemma map_profileUrl (l : List String) (p : String) (t : Int) :
    (l.map (fun prof => ({ platform := p,
                           username := String.mk ((splitOnChar '/' prof.data).getLastD []),
                           profileUrl := prof, status := "active",
                           firstSeen := t, lastSeen := t } : SocialEntry))).map
      (fun x => x.profileUrl) = l := by
  induction l with
  | nil => rfl
  | cons x xs ih => dsimp only [List.map_cons]; rw [ih]

/-- C5 amended: for every admissible set-iteration order, extraction
deduplicates by the matched string value — each category enumerates,
once each, exactly the distinct matches of its patterns (phones
additionally shown duplicate-free on the raw match) — but the order of
that enumeration is the iteration order of a Python set, which is
unspecified: it need not be the insertion order of first matches (see
the reversal counterexample).  Mutation is not at issue: the embedded
extraction is a function of its inputs. -/
theorem C5_dedup_by_value (σ : List String → List String) (h : Admissible σ)
    (url html text : String) (t : Int) :
    (((extract_information σ url html text t).identifiers.phones.map
        (fun e => e.originalFormat)).Perm
          (findAll phoneRE (html ++ " " ++ text)).dedup
      ∧ ((extract_information σ url html text t).identifiers.phones.map
          (fun e => e.originalFormat)).Nodup)
    ∧ ((extract_information σ url html text t).identifiers.emails.map
        (fun x => x.address)).Perm
          ((findAll emailRE (html ++ " " ++ text)).dedup.map pyLower)
    ∧ ((extract_information σ url html text t).identifiers.cryptoWallets.map
        (fun x => x.address)).Perm
          ((findAll btcRE (html ++ " " ++ text)).dedup ++
           ((findAll ethRE (html ++ " " ++ text)).dedup ++
            ((findAll xrpRE (html ++ " " ++ text)).dedup ++
             (findAll ltcRE (html ++ " " ++ text)).dedup)))
    ∧ ((extract_information σ url html text t).onlinePresence.socialMedia.map
        (fun x => x.profileUrl)).Perm
          ((findAll telegramRE (html ++ " " ++ text)).dedup ++
           ((findAll twitterRE (html ++ " " ++ text)).dedup ++
            ((findAll facebookRE (html ++ " " ++ text)).dedup ++
             ((findAll instagramRE (html ++ " " ++ text)).dedup ++
              ((findAll whatsappRE (html ++ " " ++ text)).dedup ++
               (findAll discordRE (html ++ " " ++ text)).dedup))))) := by
  refine ⟨⟨?_, ?_⟩, ?_, ?_, ?_⟩
  · dsimp only [extract_information]
    rw [map_originalFormat]
    exact h _
  · dsimp only [extract_information]
    rw [map_originalFormat]
    exact ((h _).nodup_iff).mpr (List.nodup_dedup _)
  · dsimp only [extract_information]
    rw [map_emailAddress]
    exact (h _).map pyLower
  · dsimp only [extract_information, cryptoPatterns]
    simp only [List.map_cons, List.map_nil, List.flatten_cons, List.flatten_nil,
               List.map_append, List.append_nil, map_walletAddress]
    exact ((h _).append ((h _).append ((h _).append (h _))))
  · dsimp only [extract_information, socialPatterns]
    simp only [List.map_cons, List.map_nil, List.flatten_cons, List.flatten_nil,
               List.map_append, List.append_nil, map_profileUrl]
    exact ((h _).append ((h _).append ((h _).append ((h _).append ((h _).append (h _))))))

/-- Witness for the amended C5 at the identity-on-distinct-elements
set order (Mathlib dedup, a permutation of itself) on a page with a
duplicated email. -/
theorem C5_dedup_by_value_witness :
    ((extract_information List.dedup "http://h/" "a@b.co a@b.co" "" 0).identifiers.emails.map
        (fun x => x.address)).Perm
          ((findAll emailRE ("a@b.co a@b.co" ++ " " ++ "")).dedup.map pyLower) :=
  (C5_dedup_by_value List.dedup (fun _ => List.Perm.refl _) "http://h/"
    "a@b.co a@b.co" "" 0).2.1

/-- A legal Python set order that reverses Mathlib dedup order. -/
def sigRev : List String → List String := fun l => l.dedup.reverse

/-- Counterexample to C5 as stated: under the admissible set order
that enumerates the two distinct matches in reverse, the extracted
email category lists the second match first, so the output is not in
insertion order of first match — the source iterates a Python set,
whose order is not the match order. -/
theorem C5_order_not_insertion_cex :
    Admissible sigRev
    ∧ findAll emailRE ("a@b.co c@d.co" ++ " " ++ "") = ["a@b.co", "c@d.co"]
    ∧ (extract_information sigRev "http://h/" "a@b.co c@d.co" "" 0).identifiers.emails.map
        (fun x => x.address) = ["c@d.co", "a@b.co"]
    ∧ ["c@d.co", "a@b.co"] ≠ ["a@b.co", "c@d.co"] :=
  ⟨fun l => List.reverse_perm _, by decide, by decide, by decide⟩
